import Mathlib

/-!
Verification of `salttesting/jenkins.py` (salt-testing CI driver).

Shallow embedding of the functions referenced by the specification:
the retry helper `_repeat` inside `bootstrap_parallels_minion`, the
persisted-state pair `save_state`/`load_state`, the IP-discovery loop
`get_minion_ip_address`, the commit check `check_cloned_reposiory_commit`,
the process runner `run_command`, the five-step parallels bootstrap,
the Windows liveness loop `check_win_minion_connected` (phase A), the
credential-redacting `run_winexe_command`, and `find_private_addr`.

External effects (child processes, the JSON parser, sleeps, prints) are
modelled as explicit inputs and outputs: each probe of a remote command
is an input value describing what that execution produced, and the
functions return the branch the Python code takes on those inputs,
together with counters for executions and sleeps where a claim needs
them.
-/

set_option autoImplicit false

namespace SaltJenkins

/-- Python's `pat in s` substring test, on character lists: true iff
`pat` is a prefix of some suffix of `s` (the empty pattern is contained
in every string). -/
def listContains (pat : List Char) : List Char → Bool
  | [] => pat.isEmpty
  | s@(_ :: rest) => pat.isPrefixOf s || listContains pat rest

/-- Python's `pat in s` on strings. -/
def strIn (pat s : String) : Bool :=
  listContains pat.data s.data

/-- Python's `not s.strip()`: the string is empty after stripping
whitespace, i.e. every character is whitespace. -/
def stripIsEmpty (s : String) : Bool :=
  s.data.all Char.isWhitespace

/-- Python's slice `s[n:]`, by code points. -/
def pyDrop (s : String) (n : Nat) : String :=
  ⟨s.data.drop n⟩

/-- Python's slice `s[:n]`, by code points. -/
def pyTake (s : String) (n : Nat) : String :=
  ⟨s.data.take n⟩

/-! ## `_repeat` (nested helper of `bootstrap_parallels_minion`)

Python source:

    def _repeat(command, key, tries=19, sleep=7):
        for i in range(tries):
            std_out = run_command(command, options, return_output=True)[0]
            if key in std_out:
                return 0
            print_bulleted(...)
            time.sleep(sleep)
        return 1

The probe (`run_command(...)[0]`, the captured stdout of attempt `i`)
is modelled as a function from the 0-based attempt index to the stdout
text it produced. -/

/-- Result of one call to `_repeat`: the returned exit code, the number
of times the probe command was executed, and the list of sleep durations
performed (in order). -/
structure RepeatOut where
  exit : Nat
  execs : Nat
  sleeps : List Nat
  deriving DecidableEq, Repr

/-- The `for i in range(tries)` loop of `_repeat`, with `i` the current
loop index and `fuel` the number of remaining iterations
(`fuel = tries - i`). Each failed attempt is followed by one sleep of
`sleepD` seconds; a successful attempt returns 0 immediately with no
further sleep; an exhausted range returns 1. -/
def repeatGo (probe : Nat → String) (key : String) (sleepD : Nat) : Nat → Nat → RepeatOut
  | _, 0 => ⟨1, 0, []⟩
  | i, fuel + 1 =>
    if strIn key (probe i) then ⟨0, 1, []⟩
    else
      let rest := repeatGo probe key sleepD (i + 1) fuel
      ⟨rest.exit, rest.execs + 1, sleepD :: rest.sleeps⟩

/-- `_repeat(command, key, tries, sleep)`: run the loop from index 0. -/
def repeatPoll (probe : Nat → String) (key : String) (tries sleepD : Nat) : RepeatOut :=
  repeatGo probe key sleepD 0 tries

theorem repeatGo_success (probe : Nat → String) (key : String) (sleepD : Nat) :
    ∀ fuel i d, d < fuel → strIn key (probe (i + d)) = true →
      (∀ j, j < d → strIn key (probe (i + j)) = false) →
      repeatGo probe key sleepD i fuel = ⟨0, d + 1, List.replicate d sleepD⟩ := by
  intro fuel
  induction fuel with
  | zero => intro i d hd; omega
  | succ n ih =>
    intro i d hd hfound hbefore
    match d with
    | 0 =>
      simp only [Nat.add_zero] at hfound
      simp [repeatGo, hfound]
    | d' + 1 =>
      have h0 : strIn key (probe i) = false := by
        have := hbefore 0 (Nat.succ_pos d')
        simpa using this
      have hrec := ih (i + 1) d' (by omega)
        (by simpa [Nat.add_assoc, Nat.add_comm 1 d'] using hfound)
        (by
          intro j hj
          have := hbefore (j + 1) (by omega)
          simpa [Nat.add_assoc, Nat.add_comm 1 j] using this)
      simp [repeatGo, h0, hrec, List.replicate_succ]

theorem repeatGo_failure (probe : Nat → String) (key : String) (sleepD : Nat) :
    ∀ fuel i, (∀ j, j < fuel → strIn key (probe (i + j)) = false) →
      repeatGo probe key sleepD i fuel = ⟨1, fuel, List.replicate fuel sleepD⟩ := by
  intro fuel
  induction fuel with
  | zero => intro i _; rfl
  | succ n ih =>
    intro i hall
    have h0 : strIn key (probe i) = false := by
      have := hall 0 (Nat.succ_pos n)
      simpa using this
    have hrec := ih (i + 1)
      (by
        intro j hj
        have := hall (j + 1) (by omega)
        simpa [Nat.add_assoc, Nat.add_comm 1 j] using this)
    simp [repeatGo, h0, hrec, List.replicate_succ]

/-- C1: for `_repeat` with `tries = N` and `sleep = D`, if the success
substring `key` first appears in the probe output on 0-based attempt
index `i` (so 1-based attempt `k = i + 1 ≤ N`), the helper returns 0
after exactly `i + 1` probe executions and exactly `i` sleeps of `D`
seconds each (no sleep after the successful attempt); if the substring
never appears in attempts `0..N-1`, the probe runs exactly `N` times and
the helper returns 1. -/
theorem repeat_poll_spec (probe : Nat → String) (key : String) (tries sleepD : Nat) :
    (∀ i, i < tries → strIn key (probe i) = true →
      (∀ j, j < i → strIn key (probe j) = false) →
      repeatPoll probe key tries sleepD = ⟨0, i + 1, List.replicate i sleepD⟩) ∧
    ((∀ j, j < tries → strIn key (probe j) = false) →
      repeatPoll probe key tries sleepD = ⟨1, tries, List.replicate tries sleepD⟩) := by
  constructor
  · intro i hi hfound hbefore
    have := repeatGo_success probe key sleepD tries 0 i hi
      (by simpa using hfound) (by intro j hj; simpa using hbefore j hj)
    simpa [repeatPoll] using this
  · intro hall
    have := repeatGo_failure probe key sleepD tries 0
      (by intro j hj; simpa using hall j hj)
    simpa [repeatPoll] using this

/-- C1 witness: a probe that reports `running` on the second attempt
(index 1) out of 5 tries with a 7 second sleep yields exit 0 after 2
executions and one sleep; a probe that never matches yields exit 1 after
5 executions. -/
theorem repeat_poll_spec_witness :
    repeatPoll (fun i => if i == 1 then "VM is running" else "VM is stopped")
      "running" 5 7 = ⟨0, 2, [7]⟩ ∧
    repeatPoll (fun _ => "VM is stopped") "running" 5 7 = ⟨1, 5, [7, 7, 7, 7, 7]⟩ := by
  constructor
  · exact (repeat_poll_spec (fun i => if i == 1 then "VM is running" else "VM is stopped")
      "running" 5 7).1 1 (by decide) (by decide)
      (by intro j hj; have hj0 : j = 0 := by omega
          subst hj0; decide)
  · exact (repeat_poll_spec (fun _ => "VM is stopped") "running" 5 7).2
      (by intro j _; decide)

/-! ## `save_state` / `load_state`

The options namespace and the persisted JSON object are both flat maps
from string keys to JSON scalars, modelled as association lists. Python
`varname in options` is `optHas`, `getattr` is `optGet`, `setattr` /
`state[k] = v` is `optSet` (replace the existing binding, else append). -/

/-- A flat JSON scalar as stored in `.state.json` / in the options. -/
inductive JVal
  | str (s : String)
  | int (n : Int)
  | bool (b : Bool)
  deriving DecidableEq, Repr

/-- The keys of an options namespace / state object. -/
def optKeys (o : List (String × JVal)) : List String :=
  o.map Prod.fst

/-- Python `getattr(namespace, k)` / `dict[k]` lookup (first binding). -/
def optGet (k : String) : List (String × JVal) → Option JVal
  | [] => none
  | p :: rest => if p.1 = k then some p.2 else optGet k rest

/-- Python `setattr(namespace, k, v)` / `dict[k] = v`: replace the
binding for `k` if present, otherwise append it. -/
def optSet (k : String) (v : JVal) (o : List (String × JVal)) : List (String × JVal) :=
  if k ∈ optKeys o then o.map (fun p => if p.1 = k then (k, v) else p)
  else o ++ [(k, v)]

/-- Outcome of reading `<workspace>/.state.json`: the file is absent,
present but not valid JSON (`json.load` raises `ValueError`), or parsed
into a flat object. -/
inductive FileRead
  | absent
  | malformed
  | parsed (st : List (String × JVal))

/-- The state object both functions start from: absent and malformed
files alike yield the empty state. -/
def readState : FileRead → List (String × JVal)
  | .absent => []
  | .malformed => []
  | .parsed st => st

/-- The save whitelist of `save_state`. -/
def stateWhitelist : List String :=
  ["workspace", "require_sudo", "output_columns", "salt_minion_synced",
   "minion_ip_address", "minion_python_executable", "salt_minion_bootstrapped"]

/-- The `for varname in (...)` loop of `save_state`:
`if varname not in state and varname in options: state[varname] = getattr(options, varname)`.
`varname in options` holding is the same as `optGet` returning a value. -/
def saveStateLoop (opts : List (String × JVal)) :
    List (String × JVal) → List String → List (String × JVal)
  | st, [] => st
  | st, varname :: rest =>
    match optGet varname opts with
    | some v =>
      if varname ∈ optKeys st then saveStateLoop opts st rest
      else saveStateLoop opts (optSet varname v st) rest
    | none => saveStateLoop opts st rest

/-- `save_state(options)`: merge the whitelisted options into the state
object read from the file; the result is what `json.dump` writes. -/
def save_state (opts : List (String × JVal)) (file : FileRead) : List (String × JVal) :=
  saveStateLoop opts (readState file) stateWhitelist

/-- `allow_overwrite_variables` of `load_state`. -/
def allow_overwrite_variables : List String := ["output_columns", "workspace"]

/-- The `for key, value in state.iteritems()` loop of `load_state`:
`if key not in allow_overwrite_variables and key in options: continue`
else `setattr(options, key, value)`. -/
def loadStateLoop : List (String × JVal) → List (String × JVal) → List (String × JVal)
  | opts, [] => opts
  | opts, (k, v) :: rest =>
    if k ∉ allow_overwrite_variables ∧ k ∈ optKeys opts then
      loadStateLoop opts rest
    else
      loadStateLoop (optSet k v opts) rest

/-- `load_state(options)`: fold the persisted state into the options. -/
def load_state (opts : List (String × JVal)) (file : FileRead) : List (String × JVal) :=
  loadStateLoop opts (readState file)

theorem optKeys_map_set (k : String) (v : JVal) (o : List (String × JVal)) :
    optKeys (o.map (fun p => if p.1 = k then (k, v) else p)) = optKeys o := by
  induction o with
  | nil => rfl
  | cons p rest ih =>
    by_cases h : p.1 = k <;> simp [optKeys, h] <;> simpa [optKeys] using ih

theorem mem_optKeys_optSet (k k' : String) (v : JVal) (o : List (String × JVal)) :
    k ∈ optKeys (optSet k' v o) ↔ k = k' ∨ k ∈ optKeys o := by
  unfold optSet
  split
  · rw [optKeys_map_set]
    constructor
    · exact Or.inr
    · rintro (rfl | h)
      · assumption
      · exact h
  · simp [optKeys, eq_comm, or_comm]

theorem optGet_eq_none_of_not_mem (k : String) (o : List (String × JVal))
    (h : k ∉ optKeys o) : optGet k o = none := by
  induction o with
  | nil => rfl
  | cons p rest ih =>
    simp only [optKeys, List.map_cons, List.mem_cons, not_or] at h
    have hpk : ¬ p.1 = k := fun hc => h.1 hc.symm
    simp [optGet, hpk, ih (by simpa [optKeys] using h.2)]

theorem optGet_append_of_not_mem (k : String) (o rest : List (String × JVal))
    (h : k ∉ optKeys o) : optGet k (o ++ rest) = optGet k rest := by
  induction o with
  | nil => rfl
  | cons p tl ih =>
    simp only [optKeys, List.map_cons, List.mem_cons, not_or] at h
    have hpk : ¬ p.1 = k := fun hc => h.1 hc.symm
    simp [optGet, hpk, ih (by simpa [optKeys] using h.2)]

theorem optGet_append_single_ne (k k' : String) (v : JVal) (o : List (String × JVal))
    (hne : k ≠ k') : optGet k (o ++ [(k', v)]) = optGet k o := by
  induction o with
  | nil => simp [optGet, hne.symm]
  | cons p rest ih => by_cases hp : p.1 = k <;> simp [optGet, hp, ih]

theorem optGet_map_set_self (k : String) (v : JVal) (o : List (String × JVal))
    (hmem : k ∈ optKeys o) :
    optGet k (o.map (fun p => if p.1 = k then (k, v) else p)) = some v := by
  induction o with
  | nil => simp [optKeys] at hmem
  | cons p rest ih =>
    by_cases h : p.1 = k
    · simp [optGet, h]
    · have : k ∈ optKeys rest := by
        simp only [optKeys, List.map_cons, List.mem_cons] at hmem
        exact hmem.resolve_left (fun hc => h hc.symm)
      simp [optGet, h, ih this]

theorem optGet_map_set_ne (k k' : String) (v : JVal) (o : List (String × JVal))
    (hne : k ≠ k') :
    optGet k (o.map (fun p => if p.1 = k' then (k', v) else p)) = optGet k o := by
  induction o with
  | nil => rfl
  | cons p rest ih =>
    by_cases h : p.1 = k'
    · simp [optGet, h, hne.symm, fun hc : k' = k => hne hc.symm, ih]
    · simp [optGet, h, ih]

theorem optGet_optSet_self (k : String) (v : JVal) (o : List (String × JVal)) :
    optGet k (optSet k v o) = some v := by
  unfold optSet
  split
  · exact optGet_map_set_self k v o (by assumption)
  · rw [optGet_append_of_not_mem k o _ (by assumption)]
    simp [optGet]

theorem optGet_optSet_ne (k k' : String) (v : JVal) (o : List (String × JVal))
    (hne : k ≠ k') : optGet k (optSet k' v o) = optGet k o := by
  unfold optSet
  split
  · exact optGet_map_set_ne k k' v o hne
  · exact optGet_append_single_ne k k' v o hne

theorem loadStateLoop_untouched (k : String) :
    ∀ st o, k ∉ optKeys st → optGet k (loadStateLoop o st) = optGet k o := by
  intro st
  induction st with
  | nil => intro o _; rfl
  | cons p rest ih =>
    intro o hk
    obtain ⟨k₁, v₁⟩ := p
    simp only [optKeys, List.map_cons, List.mem_cons, not_or] at hk
    have hne : k ≠ k₁ := hk.1
    have hrest : k ∉ optKeys rest := by simpa [optKeys] using hk.2
    unfold loadStateLoop
    split
    · exact ih o hrest
    · rw [ih (optSet k₁ v₁ o) hrest, optGet_optSet_ne k k₁ v₁ o hne]

theorem loadStateLoop_nonallow_present (k : String)
    (hallow : k ∉ allow_overwrite_variables) :
    ∀ st o, k ∈ optKeys o → optGet k (loadStateLoop o st) = optGet k o := by
  intro st
  induction st with
  | nil => intro o _; rfl
  | cons p rest ih =>
    intro o hmem
    obtain ⟨k₁, v₁⟩ := p
    unfold loadStateLoop
    split
    · exact ih o hmem
    · next hcond =>
      by_cases hk : k₁ = k
      · subst hk
        exact absurd ⟨hallow, hmem⟩ hcond
      · have hne : k ≠ k₁ := fun hc => hk hc.symm
        rw [ih (optSet k₁ v₁ o) ((mem_optKeys_optSet k k₁ v₁ o).mpr (Or.inr hmem)),
          optGet_optSet_ne k k₁ v₁ o hne]

theorem loadStateLoop_entry_applied (k : String) (v : JVal) :
    ∀ st o, (optKeys st).Nodup → optGet k st = some v →
      (k ∉ optKeys o ∨ k ∈ allow_overwrite_variables) →
      optGet k (loadStateLoop o st) = some v := by
  intro st
  induction st with
  | nil => intro o _ hget; simp [optGet] at hget
  | cons p rest ih =>
    intro o hnd hget hdisj
    obtain ⟨k₁, v₁⟩ := p
    simp only [optKeys, List.map_cons, List.nodup_cons] at hnd
    by_cases hk : k₁ = k
    · subst hk
      have hv : v₁ = v := by simpa [optGet] using hget
      subst hv
      have hrest : k₁ ∉ optKeys rest := by simpa [optKeys] using hnd.1
      unfold loadStateLoop
      split
      · next hcond =>
        rcases hdisj with hno | hal
        · exact absurd hcond.2 hno
        · exact absurd hal hcond.1
      · rw [loadStateLoop_untouched k₁ rest (optSet k₁ v₁ o) hrest,
          optGet_optSet_self k₁ v₁ o]
    · have hne : k ≠ k₁ := fun hc => hk hc.symm
      have hget' : optGet k rest = some v := by
        simpa [optGet, hk] using hget
      have hnd' : (optKeys rest).Nodup := by simpa [optKeys] using hnd.2
      unfold loadStateLoop
      split
      · exact ih o hnd' hget' hdisj
      · refine ih (optSet k₁ v₁ o) hnd' hget' ?_
        rcases hdisj with hno | hal
        · exact Or.inl (fun hc =>
            ((mem_optKeys_optSet k k₁ v₁ o).mp hc).elim (fun h => hne h) hno)
        · exact Or.inr hal

theorem saveStateLoop_nodup (opts : List (String × JVal)) :
    ∀ ws st, (optKeys st).Nodup → (optKeys (saveStateLoop opts st ws)).Nodup := by
  intro ws
  induction ws with
  | nil => intro st h; exact h
  | cons varname rest ih =>
    intro st hnd
    unfold saveStateLoop
    match hv : optGet varname opts with
    | some v =>
      simp only
      split
      · exact ih st hnd
      · next hmem =>
        refine ih _ ?_
        rw [optSet, if_neg hmem]
        have hkeys : optKeys (st ++ [(varname, v)]) = optKeys st ++ [varname] := by
          simp [optKeys]
        rw [hkeys, List.nodup_append]
        refine ⟨hnd, List.nodup_singleton varname, ?_⟩
        intro a ha hb
        rw [List.mem_singleton] at hb
        exact hmem (hb ▸ ha)
    | none => exact ih st hnd

/-- C2 counterexample: `output_columns` is in `allow_overwrite_variables`
and is already present in the in-memory options with value 80, yet
`load_state` replaces it with the persisted value 120 — the opposite of
the claim that allow-listed keys keep the freshly supplied in-memory
value. -/
theorem load_state_allowlist_counterexample :
    optGet "output_columns"
        (load_state [("output_columns", JVal.int 80)]
          (FileRead.parsed [("output_columns", JVal.int 120)]))
      = some (JVal.int 120) ∧
    some (JVal.int 120) ≠ some (JVal.int 80) := by
  exact ⟨by decide, by decide⟩

/-- C2 (amended): a key saved by `save_state` and read back by
`load_state` into a fresh option set (one not containing the key) yields
the saved value; but the allow-list works the other way around from the
claim: for keys in `allow_overwrite_variables = {output_columns,
workspace}` the persisted value always overwrites the in-memory one,
while for keys outside the allow-list the persisted value only fills in
keys not already present in the options. -/
theorem save_load_state_spec (opts fresh st : List (String × JVal)) (k : String)
    (v : JVal) (hnd : (optKeys st).Nodup) :
    (optGet k (save_state opts FileRead.absent) = some v → k ∉ optKeys fresh →
      optGet k (load_state fresh (FileRead.parsed (save_state opts FileRead.absent)))
        = some v) ∧
    (k ∈ allow_overwrite_variables → optGet k st = some v →
      optGet k (load_state fresh (FileRead.parsed st)) = some v) ∧
    (k ∉ allow_overwrite_variables → k ∈ optKeys fresh →
      optGet k (load_state fresh (FileRead.parsed st)) = optGet k fresh) := by
  refine ⟨?_, ?_, ?_⟩
  · intro hsaved hfresh
    have hndsave : (optKeys (save_state opts FileRead.absent)).Nodup :=
      saveStateLoop_nodup opts stateWhitelist [] (by simp [optKeys])
    exact loadStateLoop_entry_applied k v (save_state opts FileRead.absent) fresh
      hndsave hsaved (Or.inl hfresh)
  · intro hallow hget
    exact loadStateLoop_entry_applied k v st fresh hnd hget (Or.inr hallow)
  · intro hallow hmem
    exact loadStateLoop_nonallow_present k hallow st fresh hmem

/-- C2 witness: a discovered IP saved into a fresh state file is read
back unchanged into a fresh option set; a persisted `workspace`
(allow-listed) overwrites the in-memory value; a persisted
`minion_ip_address` (not allow-listed) leaves an existing in-memory
value untouched. -/
theorem save_load_state_spec_witness :
    optGet "minion_ip_address"
        (load_state []
          (FileRead.parsed
            (save_state [("minion_ip_address", JVal.str "10.0.0.5")] FileRead.absent)))
      = some (JVal.str "10.0.0.5") ∧
    optGet "workspace"
        (load_state [("workspace", JVal.str "fresh-ws")]
          (FileRead.parsed [("workspace", JVal.str "persisted-ws")]))
      = some (JVal.str "persisted-ws") ∧
    optGet "minion_ip_address"
        (load_state [("minion_ip_address", JVal.str "10.9.9.9")]
          (FileRead.parsed [("minion_ip_address", JVal.str "10.0.0.5")]))
      = optGet "minion_ip_address" [("minion_ip_address", JVal.str "10.9.9.9")] := by
  refine ⟨?_, ?_, ?_⟩
  · exact (save_load_state_spec [("minion_ip_address", JVal.str "10.0.0.5")] [] []
      "minion_ip_address" (JVal.str "10.0.0.5") (by simp [optKeys])).1
      (by decide) (by decide)
  · exact (save_load_state_spec [] [("workspace", JVal.str "fresh-ws")]
      [("workspace", JVal.str "persisted-ws")] "workspace"
      (JVal.str "persisted-ws") (by simp [optKeys])).2.1
      (by decide) (by decide)
  · exact (save_load_state_spec [] [("minion_ip_address", JVal.str "10.9.9.9")]
      [("minion_ip_address", JVal.str "10.0.0.5")] "minion_ip_address"
      (JVal.str "10.0.0.5") (by simp [optKeys])).2.2
      (by decide) (by decide)

/-- C8: a state file whose bytes are not valid JSON makes `json.load`
raise `ValueError`, which `load_state` catches, so the state is empty:
the options are returned unchanged, exactly as when the file is absent,
and no exception escapes (the embedding is total). -/
theorem load_state_malformed (opts : List (String × JVal)) :
    load_state opts FileRead.malformed = opts ∧
    load_state opts FileRead.malformed = load_state opts FileRead.absent :=
  ⟨rfl, rfl⟩

/-! ## `get_minion_ip_address`

The loop `while attempts <= 3` starting from `attempts = 1`. Each
attempt runs the `grains.get` probe; its observable effect is modelled
as the captured `(stdout, exitcode)` pair plus the outcome of
`json.loads` and the subsequent IP extraction, which the code only
consults when `exitcode == 0` and the stripped stdout is non-empty.
`IpParse.fail` is a `ValueError`/`TypeError` from `json.loads`;
`IpParse.ip s` is a successful parse whose extracted address is `s`
(`s = ""` covers `find_private_addr` returning the empty string and the
falsy cases of `if not ip_address`). -/

/-- Result of `json.loads` plus IP extraction for one attempt. -/
inductive IpParse
  | fail
  | ip (s : String)
  deriving DecidableEq, Repr

/-- Observable behaviour of the probe command on one attempt. -/
structure IpProbeRes where
  exitcode : Int
  stdout : String
  parse : IpParse
  deriving DecidableEq, Repr

/-- How a call of `get_minion_ip_address` ends: a normal return of the
address, a normal return of `None` (the loop ends without any `return`
or `sys.exit`), or `sys.exit(code)`. -/
inductive IpResult
  | returned (ip : String)
  | returnedNone
  | exited (code : Int)
  deriving DecidableEq, Repr

/-- The retry loop of `get_minion_ip_address`, with `k` the number of
remaining iterations (`attempts = 3 - k` on entry to an iteration;
`k = 0` means `attempts` reached 4 and the loop — and the function —
ends, returning `None`). Mirrors the source: a non-zero exit code or
empty stdout retries and is fatal on attempt 3; a JSON parse failure
only increments `attempts`; a parsed but falsy address exits 1; a
parsed non-empty address is returned. -/
def getIpGo (probe : Nat → IpProbeRes) : Nat → IpResult
  | 0 => .returnedNone
  | k + 1 =>
    let a := 3 - k
    let r := probe a
    if r.exitcode ≠ 0 then
      if a = 3 then .exited r.exitcode else getIpGo probe k
    else if stripIsEmpty r.stdout then
      if a = 3 then .exited 1 else getIpGo probe k
    else
      match r.parse with
      | .fail => getIpGo probe k
      | .ip s => if s = "" then .exited 1 else .returned s

/-- `get_minion_ip_address(options)` after the bootstrap guard: the
three-attempt probe loop. -/
def get_minion_ip_address (probe : Nat → IpProbeRes) : IpResult :=
  getIpGo probe 3

/-- C3: evaluation of `get_minion_ip_address` at the claim's edge cases.
A JSON parse failure on a non-final attempt leads to another attempt,
and an empty output on the final attempt is fatal (`sys.exit`), as the
claim says — but a JSON parse failure on the final (third) attempt is
NOT fatal: the loop ends and the function returns `None` normally
instead of terminating the process, contradicting the claim (and the
fatal handling the sibling branches give the third attempt). -/
theorem get_minion_ip_parse_failure_final :
    get_minion_ip_address (fun _ => ⟨0, "not-json", IpParse.fail⟩)
      = IpResult.returnedNone ∧
    get_minion_ip_address
        (fun a => if a < 3 then ⟨0, "not-json", IpParse.fail⟩ else ⟨0, "", IpParse.fail⟩)
      = IpResult.exited 1 ∧
    get_minion_ip_address
        (fun a => if a < 3 then ⟨0, "not-json", IpParse.fail⟩
                  else ⟨0, "ipinfo", IpParse.ip "10.0.0.5"⟩)
      = IpResult.returned "10.0.0.5" := by
  refine ⟨by decide, by decide, by decide⟩

/-! ## `check_cloned_reposiory_commit`

One probe (`git.revision` over `salt`), then:
`if exitcode: sys.exit(exitcode)`; `if not stdout.strip(): sys.exit(1)`;
then `json.loads` and the comparison
`revision_info[vm_name][7:] != options.test_git_commit[7:]`, which
prints a mismatch warning (showing the `[:7]` truncations) and
continues, or prints `Matches!`; a `ValueError`/`TypeError` prints a
parse failure and continues. -/

/-- Result of `json.loads` plus the `[vm_name]` lookup. -/
inductive RevParse
  | fail
  | rev (r : String)
  deriving DecidableEq, Repr

/-- Observable behaviour of the revision probe command. -/
structure RevProbe where
  exitcode : Int
  stdout : String
  parse : RevParse
  deriving DecidableEq, Repr

/-- How `check_cloned_reposiory_commit` ends: `sys.exit(code)`, or a
normal return after printing a mismatch warning (carrying the `[:7]`
truncations it prints), a `Matches!` message, or a parse-failure
message. -/
inductive CheckCommitResult
  | exited (code : Int)
  | mismatchWarned (remote7 expected7 : String)
  | matched
  | parseFailWarned
  deriving DecidableEq, Repr

/-- `check_cloned_reposiory_commit(options)`: Python `s[7:]` is
`String.drop s 7` and `s[:7]` is `String.take s 7`. -/
def check_cloned_reposiory_commit (probe : RevProbe) (testGitCommit : String) :
    CheckCommitResult :=
  if probe.exitcode ≠ 0 then .exited probe.exitcode
  else if stripIsEmpty probe.stdout then .exited 1
  else
    match probe.parse with
    | .fail => .parseFailWarned
    | .rev r =>
      if pyDrop r 7 ≠ pyDrop testGitCommit 7 then
        .mismatchWarned (pyTake r 7) (pyTake testGitCommit 7)
      else .matched

/-- C4: evaluation at the claim's scenario. A remote revision
`abc1234` against expected `abc9999` differs in its first 7 characters,
yet the code reports `Matches!` and continues, because the comparison
drops the first 7 characters (`[7:]`) instead of truncating to them
(`[:7]` — the truncation its own warning message prints); a non-zero
exit code from the revision fetch does terminate with that exit code, as
the claim says. -/
theorem check_commit_suffix_comparison :
    check_cloned_reposiory_commit ⟨0, "revjson", RevParse.rev "abc1234"⟩ "abc9999"
      = CheckCommitResult.matched ∧
    pyTake "abc1234" 7 ≠ pyTake "abc9999" 7 ∧
    check_cloned_reposiory_commit ⟨5, "revjson", RevParse.rev "abc1234"⟩ "abc9999"
      = CheckCommitResult.exited 5 := by
  refine ⟨by decide, by decide, by decide⟩

/-! ## `run_command`

The terminal abstraction (`salt.utils.vt`) is modelled by its
observable behaviour: whether `vt.Terminal(...)` itself raises
`vt.TerminalException`, and, if not, the sequence of poll iterations
of the `while True` loop, each of which either returns
`(stdout, stderr)` from `proc.recv` together with `proc.isalive()`, or
raises `vt.TerminalException`. `proc.close(terminate=True, kill=True)`
calls are counted. When creation itself raises, the local variable
`proc` was never bound, so the `finally` block's `proc.close(...)`
raises a `NameError` (`UnboundLocalError`) and no close happens. -/

/-- One iteration of the polling loop: `proc.recv(4096)` returning
output plus the `proc.isalive()` answer, or a transport exception. -/
inductive RecvStep
  | recv (stdout stderr : String) (alive : Bool)
  | transportError
  deriving DecidableEq, Repr

/-- How a call of `run_command` ends. `stillPolling` is the artifact of
a finite event trace: the real loop would continue polling, and has not
reached any exit path (so no close has happened yet). -/
inductive RunDisposition
  | completed (stdoutBuf stderrBuf : String) (exitstatus : Int)
  | transportFailed
  | raisedNameError
  | stillPolling
  deriving DecidableEq, Repr

/-- Number of `proc.close` calls performed, and the disposition. -/
structure RunResult where
  closes : Nat
  disp : RunDisposition
  deriving DecidableEq, Repr

/-- The `while True` loop of `run_command`. The `procTerminated` flag
is set when a poll sees a dead process with no pending output; the loop
breaks one iteration later (after one more `recv`), then the `finally`
block closes the process once. A transport exception inside the loop is
caught, printed, and the function falls off the handler returning
`None`; the `finally` block still closes the process once. -/
def runLoop (exitstatus : Int) (returnOutput : Bool) :
    List RecvStep → Bool → String → String → RunResult
  | [], _, _, _ => ⟨0, .stillPolling⟩
  | .transportError :: _, _, _, _ => ⟨1, .transportFailed⟩
  | .recv o e alive :: rest, procTerminated, bufO, bufE =>
    let bufO' := if returnOutput then bufO ++ o else bufO
    let bufE' := if returnOutput then bufE ++ e else bufE
    if procTerminated then ⟨1, .completed bufO' bufE' exitstatus⟩
    else runLoop exitstatus returnOutput rest (!alive && o == "" && e == "") bufO' bufE'

/-- `run_command(cmd, options, ...)`: `vt.Terminal` creation followed by
the polling loop; `exitstatus` is the final `proc.exitstatus`. -/
def run_command (creationFails : Bool) (steps : List RecvStep) (exitstatus : Int)
    (returnOutput : Bool) : RunResult :=
  if creationFails then ⟨0, .raisedNameError⟩
  else runLoop exitstatus returnOutput steps false "" ""

/-- C5 counterexample: when `vt.Terminal(...)` itself raises a
transport error (process creation fails), no process handle exists and
`proc.close` is executed zero times — not exactly once as the claim
states for every invocation — and `run_command` propagates a
`NameError` from the `finally` block. -/
theorem run_command_creation_failure_counterexample :
    run_command true [] 0 false = ⟨0, RunDisposition.raisedNameError⟩ ∧
    (run_command true [] 0 false).closes ≠ 1 := by
  exact ⟨rfl, by decide⟩

theorem runLoop_closes (exitstatus : Int) (returnOutput : Bool) :
    ∀ steps procTerminated bufO bufE,
      (runLoop exitstatus returnOutput steps procTerminated bufO bufE).disp
          = RunDisposition.stillPolling ∧
        (runLoop exitstatus returnOutput steps procTerminated bufO bufE).closes = 0 ∨
      (runLoop exitstatus returnOutput steps procTerminated bufO bufE).closes = 1 := by
  intro steps
  induction steps with
  | nil => intro _ _ _; exact Or.inl ⟨rfl, rfl⟩
  | cons step rest ih =>
    intro procTerminated bufO bufE
    match step with
    | .transportError => exact Or.inr rfl
    | .recv o e alive =>
      by_cases h : procTerminated = true
      · subst h; exact Or.inr rfl
      · have h' : procTerminated = false := by simpa using h
        subst h'
        simpa [runLoop] using ih (!alive && o == "" && e == "") _ _

/-- C5 (amended): whenever the terminal is created successfully, the
child process handle is closed exactly once on every exit path of
`run_command` — normal completion with a zero or non-zero exit status,
and a transport error raised during polling (caught, printed, and
turned into a `None` return) alike; only when `vt.Terminal(...)` itself
raises does no close happen (no handle exists), and the cleanup then
raises a `NameError` instead of returning. -/
theorem run_command_closes_once (steps : List RecvStep) (exitstatus : Int)
    (returnOutput : Bool)
    (h : (run_command false steps exitstatus returnOutput).disp
          ≠ RunDisposition.stillPolling) :
    (run_command false steps exitstatus returnOutput).closes = 1 := by
  have := runLoop_closes exitstatus returnOutput steps false "" ""
  rcases this with ⟨hdisp, _⟩ | hone
  · exact absurd (by simpa [run_command] using hdisp) h
  · simpa [run_command] using hone

/-- C5 witness: a run whose process emits output, dies, and is then
reaped closes the handle exactly once; so does a run that hits a
transport error mid-poll. -/
theorem run_command_closes_once_witness :
    (run_command false
        [RecvStep.recv "hello" "" true, RecvStep.recv "" "" false,
         RecvStep.recv "" "" false] 2 true).closes = 1 ∧
    (run_command false [RecvStep.recv "hi" "" true, RecvStep.transportError]
        0 false).closes = 1 := by
  constructor
  · exact run_command_closes_once
      [RecvStep.recv "hello" "" true, RecvStep.recv "" "" false,
       RecvStep.recv "" "" false] 2 true (by decide)
  · exact run_command_closes_once
      [RecvStep.recv "hi" "" true, RecvStep.transportError] 0 false (by decide)

/-! ## `bootstrap_parallels_minion` step driver

    for fcn in (vm_cloned, vm_started, bootstrap_salt, minion_reloaded, accept_key):
        exitcode = fcn()
        if exitcode != 0:
            return exitcode
    setattr(options, 'salt_minion_bootstrapped', 'yes')
    return 0

Each step's exit code (the value its closure would return if executed)
is an input; the driver returns the bootstrap's exit code together with
the number of steps actually executed. -/

/-- The early-exit fold over the five step closures: result is
`(returned exit code, number of steps executed)`. -/
def runBootstrapSteps : List Int → Int × Nat
  | [] => (0, 0)
  | c :: rest =>
    if c ≠ 0 then (c, 1)
    else
      let r := runBootstrapSteps rest
      (r.1, r.2 + 1)

/-- `bootstrap_parallels_minion(options)` over the exit codes of
`vm_cloned`, `vm_started`, `bootstrap_salt`, `minion_reloaded`,
`accept_key` (in the source's order). -/
def bootstrap_parallels_minion (vmCloned vmStarted bootstrapSalt minionReloaded
    acceptKey : Int) : Int × Nat :=
  runBootstrapSteps [vmCloned, vmStarted, bootstrapSalt, minionReloaded, acceptKey]

/-- C6: the five bootstrap steps run strictly in the order clone,
start, install, reload, accept-key; the first step with a non-zero exit
code ends the bootstrap with exactly that exit code and no later step
executes — in particular a failing start (step 2) means the install
step (step 3) is never attempted (only 2 steps execute) — and when all
five succeed, all five execute and the bootstrap returns 0. -/
theorem bootstrap_parallels_step_ordering (c1 c2 c3 c4 c5 : Int) :
    (c1 ≠ 0 → bootstrap_parallels_minion c1 c2 c3 c4 c5 = (c1, 1)) ∧
    (c1 = 0 → c2 ≠ 0 → bootstrap_parallels_minion c1 c2 c3 c4 c5 = (c2, 2)) ∧
    (c1 = 0 → c2 = 0 → c3 ≠ 0 →
      bootstrap_parallels_minion c1 c2 c3 c4 c5 = (c3, 3)) ∧
    (c1 = 0 → c2 = 0 → c3 = 0 → c4 ≠ 0 →
      bootstrap_parallels_minion c1 c2 c3 c4 c5 = (c4, 4)) ∧
    (c1 = 0 → c2 = 0 → c3 = 0 → c4 = 0 → c5 ≠ 0 →
      bootstrap_parallels_minion c1 c2 c3 c4 c5 = (c5, 5)) ∧
    (c1 = 0 → c2 = 0 → c3 = 0 → c4 = 0 → c5 = 0 →
      bootstrap_parallels_minion c1 c2 c3 c4 c5 = (0, 5)) := by
  refine ⟨?_, ?_, ?_, ?_, ?_, ?_⟩ <;>
    intros <;>
    simp_all [bootstrap_parallels_minion, runBootstrapSteps]

/-- C6 witness: with a successful clone and a start step failing with
exit code 7, the bootstrap returns 7 after executing only 2 steps (the
install step never runs); with all steps succeeding it returns 0 after
all 5. -/
theorem bootstrap_parallels_step_ordering_witness :
    bootstrap_parallels_minion 0 7 3 4 5 = (7, 2) ∧
    bootstrap_parallels_minion 0 0 0 0 0 = (0, 5) := by
  constructor
  · exact (bootstrap_parallels_step_ordering 0 7 3 4 5).2.1 rfl (by decide)
  · exact (bootstrap_parallels_step_ordering 0 0 0 0 0).2.2.2.2.2 rfl rfl rfl rfl rfl

/-! ## `check_win_minion_connected`, phase A (pre-reboot ping loop)

    retries = 0
    while retries <= 24:
        retries += 1
        stdout, stderr, exitcode = run_command(... test.ping ...)
        if exitcode:
            ...
            if retries > 24: sys.exit(exitcode)
        if not stdout.strip():
            ...
            if retries > 24: sys.exit(1)
        try:
            ping = json.loads(stdout.strip())
        except (ValueError, TypeError):
            ...
            if retries <= 24: time.sleep(30)
            continue
        if ping[options.vm_name] is True:
            <reboot block>  # then break
        else:
            ...
            if retries <= 24: time.sleep(30)

The ping probe's observable behaviour on one attempt is its exit code
(`if exitcode:` is Python truthiness, i.e. non-zero), its stdout, and
the outcome of `json.loads` plus the `[vm_name] is True` test. -/

/-- One attempt's probe behaviour in phase A: exit code, stdout, and
`none` for a `ValueError`/`TypeError` from `json.loads`, or
`some b` where `b` is `ping[vm_name] is True`. -/
structure WinPingRes where
  exitcode : Int
  stdout : String
  parse : Option Bool
  deriving DecidableEq, Repr

/-- How phase A ends: `sys.exit(code)` on a final-attempt failure, a
reboot command issued after the first `True` ping reply (on the given
1-based attempt; the loop then breaks), or the `while` condition going
false with no reply (execution falls through to phase B). -/
inductive PhaseARes
  | exited (code : Int)
  | rebootIssued (attempt : Nat)
  | fellThrough
  deriving DecidableEq, Repr

/-- Phase A outcome plus the number of ping-probe executions and of
30-second sleeps performed. -/
structure PhaseAOut where
  result : PhaseARes
  evals : Nat
  sleeps : Nat
  deriving DecidableEq, Repr

/-- Record one more probe execution and one 30-second sleep in front of
the rest of the loop's outcome. -/
def stepAndSleep (rest : PhaseAOut) : PhaseAOut :=
  ⟨rest.result, rest.evals + 1, rest.sleeps + 1⟩

/-- The phase A loop, with the argument `k + 1` the number of loop
iterations the guard `retries <= 24` still admits; the attempt number
after `retries += 1` in the current iteration is `25 - k`. The counter
starts at 0, so the guard admits 25 iterations and the initial call
passes 25. -/
def phaseAGo (probe : Nat → WinPingRes) : Nat → PhaseAOut
  | 0 => ⟨.fellThrough, 0, 0⟩
  | k + 1 =>
    if (probe (25 - k)).exitcode ≠ 0 ∧ 25 - k > 24 then
      ⟨.exited (probe (25 - k)).exitcode, 1, 0⟩
    else if stripIsEmpty (probe (25 - k)).stdout ∧ 25 - k > 24 then
      ⟨.exited 1, 1, 0⟩
    else
      match (probe (25 - k)).parse with
      | none =>
        if 25 - k ≤ 24 then stepAndSleep (phaseAGo probe k)
        else ⟨.fellThrough, 1, 0⟩
      | some b =>
        if b then ⟨.rebootIssued (25 - k), 1, 0⟩
        else if 25 - k ≤ 24 then stepAndSleep (phaseAGo probe k)
        else ⟨.fellThrough, 1, 0⟩

/-- Phase A of `check_win_minion_connected` (the pre-reboot agent ping
loop), starting from `retries = 0`. -/
def checkWinPhaseA (probe : Nat → WinPingRes) : PhaseAOut :=
  phaseAGo probe 25

/-- C7: evaluation of phase A. A minion that answers `True` on the
first ping gets the reboot command issued immediately after exactly one
probe, as the claim says — but a minion that never answers makes the
loop body run for `retries = 0..24`, so the ping probe is executed 25
times (with a 30-second sleep after each of the first 24 unsuccessful
attempts), not at most 24 times as the claim and the code's own
comment (`We'll try 24 times (12 min)`) state. -/
theorem check_win_phaseA_counts :
    checkWinPhaseA (fun _ => ⟨0, "pingjson", some false⟩)
      = ⟨PhaseARes.fellThrough, 25, 24⟩ ∧
    checkWinPhaseA (fun _ => ⟨0, "pingjson", some true⟩)
      = ⟨PhaseARes.rebootIssued 1, 1, 0⟩ := by
  exact ⟨by decide, by decide⟩

theorem phaseAGo_evals_le (probe : Nat → WinPingRes) :
    ∀ k, (phaseAGo probe k).evals ≤ k := by
  intro k
  induction k with
  | zero => simp [phaseAGo]
  | succ n ih =>
    have hstep : (stepAndSleep (phaseAGo probe n)).evals ≤ n + 1 := by
      simpa [stepAndSleep] using Nat.add_le_add_right ih 1
    unfold phaseAGo
    split
    · simp
    · split
      · simp
      · split
        · split
          · exact hstep
          · simp
        · split
          · simp
          · split
            · exact hstep
            · simp

/-- Upper bound actually enforced by the loop structure: phase A never
executes the ping probe more than 25 times, for any probe behaviour. -/
theorem check_win_phaseA_bound (probe : Nat → WinPingRes) :
    (checkWinPhaseA probe).evals ≤ 25 :=
  phaseAGo_evals_le probe 25

/-! ## `run_winexe_command`

    credentials = "-U '{0}%{1}' //{2}".format(win_username, win_password, host)
    logging_credentials = "-U '{0}%XXX-REDACTED-XXX' //{1}".format(win_username, host)
    cmd = 'winexe {0} \'cmd /c "{1}"\''.format(credentials, remote_command)
    logging_cmd = 'winexe {0} \'cmd /c "{1}"\''.format(logging_credentials, remote_command)
    print_bulleted(options, 'Running WinEXE command: {0}'.format(logging_cmd))
    return win_cmd(cmd, logging_command=logging_cmd)

The observable outputs are the line printed to the console and the
command line actually handed to `win_cmd` for execution (`win_cmd` is
given `logging_cmd` for its own echoing, so the printed text is the
only console output containing a command line). -/

/-- The console line and the executed command line of one
`run_winexe_command` call. -/
structure WinexeCall where
  printed : String
  executed : String
  deriving DecidableEq, Repr

/-- `run_winexe_command(options, remote_command)` after the IP and
credential lookups: build the real and the redacted command line, print
the redacted one, execute the real one. -/
def run_winexe_command (winUsername winPassword host remoteCommand : String) :
    WinexeCall :=
  let credentials :=
    "-U \x27" ++ winUsername ++ "%" ++ winPassword ++ "\x27 //" ++ host
  let loggingCredentials :=
    "-U \x27" ++ winUsername ++ "%" ++ "XXX-REDACTED-XXX" ++ "\x27 //" ++ host
  let cmd :=
    "winexe " ++ credentials ++ " \x27cmd /c \"" ++ remoteCommand ++ "\"\x27"
  let loggingCmd :=
    "winexe " ++ loggingCredentials ++ " \x27cmd /c \"" ++ remoteCommand ++ "\"\x27"
  { printed := "Running WinEXE command: " ++ loggingCmd
    executed := cmd }

/-- The common shape of both command lines: a winexe invocation whose
only varying part is what stands in the password slot. -/
def winexeTemplate (winUsername passwordSlot host remoteCommand : String) : String :=
  "winexe " ++ ("-U \x27" ++ winUsername ++ "%" ++ passwordSlot ++ "\x27 //" ++ host)
    ++ " \x27cmd /c \"" ++ remoteCommand ++ "\"\x27"

/-- C9 counterexample: when the password happens to occur in another
interpolated field — here a password equal to the username — the real
password string does appear in the printed output, so the claim's
"the real password string never appears in any printed output" fails
as stated for some username/password/host choices. -/
theorem run_winexe_password_leak_counterexample :
    strIn "hunter2"
      (run_winexe_command "hunter2" "hunter2" "10.1.2.3" "ipconfig").printed = true := by
  decide

/-- C9 (amended): the printed command line is exactly the redacted
form — the shared winexe template with the fixed placeholder
`XXX-REDACTED-XXX` in the password slot — and does not depend on the
password at all (any two passwords print identically), while the
executed command is the same template with the real password in that
slot, so printed and executed differ only in the placeholder position.
The password can still appear in the printed line when it occurs inside
the username, host, or remote command. -/
theorem run_winexe_redaction (winUsername winPassword otherPassword host
    remoteCommand : String) :
    (run_winexe_command winUsername winPassword host remoteCommand).printed
        = "Running WinEXE command: "
            ++ winexeTemplate winUsername "XXX-REDACTED-XXX" host remoteCommand ∧
    (run_winexe_command winUsername winPassword host remoteCommand).executed
        = winexeTemplate winUsername winPassword host remoteCommand ∧
    (run_winexe_command winUsername winPassword host remoteCommand).printed
        = (run_winexe_command winUsername otherPassword host remoteCommand).printed := by
  refine ⟨rfl, rfl, rfl⟩

/-! ## `find_private_addr`

    def find_private_addr(ip_addrs):
        for ip_address in ip_addrs:
            ip = [int(quad) for quad in ip_address.strip().split('.')]
            if ip[0] == 10:
                return ip_address
            elif ip[0] == 172 and ip[1] in [i for i in range(16, 32)]:
                return ip_address
            elif ip[0] == 192 and ip[1] == 168:
                return ip_address
            return ''

The final `return ''` sits inside the loop body, so only the first
element is ever inspected; an empty input list falls off the function,
returning `None`. String helpers mirror `str.strip`, `str.split('.')`
and `int` on decimal digit strings (the claim's domain of dotted-quad
address strings; Python `int` raises on other inputs). -/

/-- Python `s.strip()` on a character list. -/
def pyStrip (s : List Char) : List Char :=
  ((s.dropWhile Char.isWhitespace).reverse.dropWhile Char.isWhitespace).reverse

/-- Python `s.split('.')` on a character list, with `acc` the reversed
current chunk. -/
def splitDotAux : List Char → List Char → List (List Char)
  | [], acc => [acc.reverse]
  | c :: rest, acc =>
    if c = '.' then acc.reverse :: splitDotAux rest []
    else splitDotAux rest (c :: acc)

/-- Python `int(q)` for a non-empty decimal digit string. -/
def quadVal (q : List Char) : Nat :=
  q.foldl (fun acc c => acc * 10 + (c.toNat - 48)) 0

/-- The parsed quads of one address string:
`[int(quad) for quad in ip_address.strip().split('.')]`. -/
def parseQuads (s : String) : List Nat :=
  (splitDotAux (pyStrip s.data) []).map quadVal

/-- A dotted-quad address string in the claim's sense: after stripping,
exactly four dot-separated non-empty runs of decimal digits. -/
def validDottedQuad (s : String) : Bool :=
  let parts := splitDotAux (pyStrip s.data) []
  parts.length == 4 && parts.all (fun q => !q.isEmpty && q.all Char.isDigit)

/-- `find_private_addr(ip_addrs)`. -/
def find_private_addr : List String → Option String
  | [] => none
  | ipAddress :: _ =>
    let ip := parseQuads ipAddress
    if ip.getD 0 0 = 10 then some ipAddress
    else if ip.getD 0 0 = 172 ∧ ip.getD 1 0 ∈ List.range' 16 16 then some ipAddress
    else if ip.getD 0 0 = 192 ∧ ip.getD 1 0 = 168 then some ipAddress
    else some ""

/-- The claim's RFC 1918 test on the same parse: first octet 10, or
172 with second octet 16–31, or 192.168. -/
def isRFC1918 (s : String) : Bool :=
  let q := parseQuads s
  q.getD 0 0 == 10 ||
    (q.getD 0 0 == 172 && decide (16 ≤ q.getD 1 0) && decide (q.getD 1 0 ≤ 31)) ||
    (q.getD 0 0 == 192 && q.getD 1 0 == 168)

theorem find_private_addr_cons (x : String) (xs : List String) :
    find_private_addr (x :: xs) = some (if isRFC1918 x then x else "") := by
  unfold find_private_addr isRFC1918
  simp only [Bool.or_eq_true, Bool.and_eq_true, beq_iff_eq, decide_eq_true_eq,
    List.mem_range'_1]
  split_ifs <;> simp_all <;> omega

/-- C10: `find_private_addr` inspects only the first element of its
input: for a non-empty list it returns the first element when that
element is an RFC 1918 address (10.0.0.0/8, 172.16.0.0/12,
192.168.0.0/16) and the empty string otherwise — the tail, private or
not, is never consulted — and for the empty list it returns `None`. -/
theorem find_private_addr_first_only (x : String) (xs : List String) :
    find_private_addr ([] : List String) = none ∧
    find_private_addr (x :: xs) = find_private_addr [x] ∧
    (isRFC1918 x = true → find_private_addr (x :: xs) = some x) ∧
    (isRFC1918 x = false → find_private_addr (x :: xs) = some "") := by
  refine ⟨rfl, rfl, ?_, ?_⟩ <;>
    intro h <;> simp [find_private_addr_cons, h]

/-- C10 witness: a private first element is returned even though the
tail is public, and a public first element yields the empty string even
though the tail contains a private address. -/
theorem find_private_addr_first_only_witness :
    find_private_addr ["172.16.4.2", "8.8.8.8"] = some "172.16.4.2" ∧
    find_private_addr ["8.8.8.8", "10.0.0.1"] = some "" := by
  constructor
  · exact (find_private_addr_first_only "172.16.4.2" ["8.8.8.8"]).2.2.1 (by decide)
  · exact (find_private_addr_first_only "8.8.8.8" ["10.0.0.1"]).2.2.2 (by decide)

end SaltJenkins
